import Mathlib

/-!
Formal model of the email-checker service core, shallowly embedded from the
Go sources: the SMTP error classifier and probe loop (`internal/smtp`), the
email worker pool (`internal/checker`), the HTTP task handlers and task
processing (`internal/server`), quota accounting (`internal/auth`), the
throttle manager (`internal/throttle`) and the in-memory TTL cache
(`internal/cache`). Network, database and clock effects are passed in as
explicit oracle functions or state; machine integers are modelled as `Int`
(no arithmetic here approaches overflow). Theorems about the model follow
at the end of the file.
-/

namespace EmailChecker

/-! ## SMTP error classification (internal/smtp, `classifySMTPError` and helpers) -/

/-- Characters of `l` strictly before the first occurrence of `c`.
This is Go `strings.SplitN(s, string(c), n)[0]` for any `n ≥ 1`. -/
def takeBefore (c : Char) : List Char → List Char
  | [] => []
  | x :: xs => if x = c then [] else x :: takeBefore c xs

/-- Model of Go `strings.HasPrefix(s, p)` via the character lists. -/
def startsWithList : List Char → List Char → Bool
  | [], _ => true
  | _ :: _, [] => false
  | p :: ps, c :: cs => p = c && startsWithList ps cs

/-- Go `strings.HasPrefix (s, p)`. -/
def hasPrefixStr (s p : String) : Bool :=
  startsWithList p.data s.data

/-- Go `strings.Contains(s, pat)`: some suffix of `s` starts with `pat`. -/
def containsSub (s pat : String) : Bool :=
  s.data.tails.any fun t => startsWithList pat.data t

namespace Smtp

/-- Model of `extractSMTPCode` (internal/smtp): take the first
space-separated token of the message; if it has at least 3 characters and
starts with the byte 4 or 5, return its part before the first dot,
otherwise the empty string. (Go indexes bytes; on the ASCII reply codes the
classifier looks at, bytes and characters coincide.) -/
def extractSMTPCode (errMsg : String) : String :=
  let p0 := takeBefore ' ' errMsg.data
  if 3 ≤ p0.length ∧ (p0.headD ' ' = '4' ∨ p0.headD ' ' = '5') then
    String.mk (takeBefore '.' p0)
  else
    ""

/-- Model of `calculateTTL` (internal/smtp): retry TTL hints for temporary
reply codes. -/
def calculateTTL (code : String) : Int :=
  if code = "421" then 1800
  else if code = "450" then 3600
  else if code = "451" then 7200
  else if code = "452" then 14400
  else 3600

/-- Model of `handlePermanentErrors` (internal/smtp): category for a 5xx
reply code; always permanent with ttl 0. -/
def handlePermanentErrors (code : String) : String × Bool × Int :=
  if code = "550" ∨ code = "551" then ("mailbox_not_found", true, 0)
  else if code = "552" then ("mailbox_full", true, 0)
  else if code = "553" ∨ code = "501" then ("invalid_address", true, 0)
  else if code = "554" then ("transaction_failed", true, 0)
  else ("permanent_error", true, 0)

/-- Model of `handleTemporaryErrors` (internal/smtp): category for a 4xx
reply code; never permanent, ttl from `calculateTTL`. -/
def handleTemporaryErrors (code : String) : String × Bool × Int :=
  let ttl := calculateTTL code
  if code = "421" ∨ code = "450" then ("server_unavailable", false, ttl)
  else if code = "451" then ("server_error", false, ttl)
  else if code = "452" then ("storage_limit", false, ttl)
  else ("temporary_error", false, ttl)

/-- Model of `classifySMTPError` (internal/smtp): dispatch on the extracted
code, with the special RBL branch checked first exactly as in the source. -/
def classifySMTPError (errMsg : String) : String × Bool × Int :=
  let code := extractSMTPCode errMsg
  if code = "5.7.1" ∧ containsSub errMsg "RBL Restriction" = true then
    ("rbl_restriction", false, 60)
  else if hasPrefixStr code "5" then handlePermanentErrors code
  else if hasPrefixStr code "4" then handleTemporaryErrors code
  else ("unknown_error", true, 0)

end Smtp

/-! ## SMTP probe loop (internal/smtp, `CheckEmailExists`)

The network interaction of one `attempt` call (dial, HELO, MAIL FROM,
RCPT TO) is inherently external; it is modelled as an oracle
`net : Nat → AttemptResult` indexed by a call counter threaded through the
run, so that the k-th call to `attempt` during an execution observes
`net k`. Everything around the oracle follows the source. -/

/-- Result triple of one `attempt` call in the source:
`(exists, err, retry)`. -/
structure AttemptResult where
  existsFlag : Bool
  err : String
  retry : Bool
deriving DecidableEq

/-- Model of one `*net.MX` record: host (possibly with trailing dot) and
preference. -/
structure MXRec where
  host : String
  pref : Nat
deriving DecidableEq

/-- Go `strings.TrimSuffix(s, ".")`: drop one trailing dot if present. -/
def trimDot (s : String) : String :=
  if s.endsWith "." then s.dropRight 1 else s

/-- Whitespace for Go `strings.TrimSpace` (the ASCII space characters the
emails at hand can contain). -/
def isSpaceChar (c : Char) : Bool :=
  c = ' ' ∨ c = '\t' ∨ c = '\n' ∨ c = '\r'

/-- Go `strings.TrimSpace`: drop leading and trailing whitespace. -/
def trimStr (s : String) : String :=
  String.mk (((s.data.dropWhile isSpaceChar).reverse.dropWhile isSpaceChar).reverse)

/-- Go `strings.ToLower` on the ASCII range (`Char.toLower` lowercases
exactly the ASCII uppercase letters). -/
def toLowerStr (s : String) : String :=
  String.mk (s.data.map Char.toLower)

/-- Go `strings.Split(s, string(c))` over the character list: split at
every separator occurrence, keeping empty fields. -/
def splitOnChar (c : Char) : List Char → List (List Char)
  | [] => [[]]
  | x :: xs =>
    if x = c then [] :: splitOnChar c xs
    else
      match splitOnChar c xs with
      | [] => [[x]]
      | h :: t => (x :: h) :: t

/-- Domain of an email: Go `strings.Split(email, "@")[1]`. (The Go code
panics when the address has no `@`; the model totalises with `""`, and the
theorems only use addresses containing `@`.) -/
def emailDomain (email : String) : String :=
  match (splitOnChar '@' email.data).get? 1 with
  | some l => String.mk l
  | none => ""

namespace Smtp

/-- `maxRetries` constant of internal/smtp. -/
def maxRetries : Nat := 2

/-- Ports tried for every MX host, in source order. -/
def smtpPorts : List String := ["25", "587", "465"]

/-- Model of `attemptWithRetry` (internal/smtp): up to `fuel` = `maxRetries`
calls of `attempt`; stop at the first result whose retry flag is false
(returning it with the flag cleared, as the source does), else report
"max retries exceeded". Returns the result and the next oracle index. -/
def attemptWithRetry (net : Nat → AttemptResult) (k : Nat) : Nat → AttemptResult × Nat
  | 0 => (⟨false, "max retries exceeded", false⟩, k)
  | fuel + 1 =>
    let r := net k
    if r.retry then attemptWithRetry net (k + 1) fuel
    else (⟨r.existsFlag, r.err, false⟩, k + 1)

/-- Throttle-manager side effects `CheckEmailExists` can perform, in order. -/
inductive ThrottleAction where
  | throttleWithTTL (domain : String) (ttlSeconds : Int)
  | throttleDefault (domain : String)
  | scheduleRetry (email : String) (attempt : Int)
deriving DecidableEq

/-- Mutable locals of the `CheckEmailExists` scan loop, plus the oracle
index `k`. -/
structure ScanState where
  k : Nat
  maxTTL : Int
  finalErr : String
  finalCategory : String
  tempErrors : Nat
deriving DecidableEq

/-- Outcome quintuple of `CheckEmailExists`:
`(exists, smtp_error, category, permanent, ttl)`. -/
structure SMTPOutcome where
  existsFlag : Bool
  err : String
  category : String
  permanent : Bool
  ttl : Int
deriving DecidableEq

/-- How the nested scan loop ends: an early `return` from inside the loop
body (with the throttle actions performed on the way out), a `break` on a
permanent classification, or normal exhaustion of the list. -/
inductive ScanExit where
  | early (out : SMTPOutcome) (acts : List ThrottleAction)
  | permBreak (st : ScanState) (permErr permCat : String)
  | cont (st : ScanState)
deriving DecidableEq

/-- Model of the inner port loop of `CheckEmailExists` for one MX host:
attempt (with the dead second `attemptWithRetry` call guarded by the
always-false retry flag, kept as in the source), early return on success or
on the RBL category, break on a permanent classification, and temporary
error accounting otherwise. -/
def portScan (hasTM : Bool) (net : Nat → AttemptResult) (domain mxHost : String)
    (ports : List String) (st : ScanState) : ScanExit :=
  match ports with
  | [] => .cont st
  | _ :: rest =>
    let (r1, k1) := attemptWithRetry net st.k maxRetries
    let (r2, k2) := if r1.retry then attemptWithRetry net k1 maxRetries else (r1, k1)
    let st1 : ScanState := { st with k := k2 }
    if r2.existsFlag then .early ⟨true, "", "", false, 0⟩ []
    else if r2.err ≠ "" then
      let (category, permanent, ttl) := classifySMTPError r2.err
      if category = "rbl_restriction" then
        .early ⟨false, "rbl restriction", category, false, 60⟩
          (if hasTM then [.throttleWithTTL domain 60] else [])
      else if permanent then
        .permBreak st1 r2.err category
      else
        let st2 := { st1 with tempErrors := st1.tempErrors + 1 }
        let st3 := if ttl > st2.maxTTL then
            { st2 with maxTTL := ttl, finalErr := r2.err, finalCategory := category }
          else st2
        portScan hasTM net domain mxHost rest st3
    else
      portScan hasTM net domain mxHost rest st1

/-- Model of the outer MX loop of `CheckEmailExists`: run the port loop per
host (with the trailing dot of the host stripped, as in the source),
propagating early returns and the permanent break. -/
def mxScan (hasTM : Bool) (net : Nat → AttemptResult) (domain : String)
    (mxs : List MXRec) (st : ScanState) : ScanExit :=
  match mxs with
  | [] => .cont st
  | mx :: rest =>
    match portScan hasTM net domain (trimDot mx.host) smtpPorts st with
    | .early out acts => .early out acts
    | .permBreak st1 pe pc => .permBreak st1 pe pc
    | .cont st1 => mxScan hasTM net domain rest st1

/-- Model of `CheckEmailExists` (internal/smtp): throttle pre-check, the
nested scan, then the aggregation returns in source order (all-temporary
check first, then the permanent result, then the best temporary result).
`hasTM` models `throttleManager != nil`; `throttled` models
`throttleManager.IsThrottled`. Returns the outcome and the throttle
actions performed. -/
def CheckEmailExists (hasTM : Bool) (throttled : String → Bool)
    (net : Nat → AttemptResult) (email : String) (mxRecords : List MXRec) :
    SMTPOutcome × List ThrottleAction :=
  let domain := emailDomain email
  if hasTM && throttled domain then
    (⟨false, "domain throttled", "throttled", false, 0⟩, [])
  else
    let allTemp : ScanState → Bool := fun st =>
      decide (0 < st.tempErrors ∧ st.tempErrors = mxRecords.length * smtpPorts.length)
    let allTempResult : ScanState → SMTPOutcome × List ThrottleAction := fun st =>
      (⟨false, "all MX temporary errors", "temporary", false, st.maxTTL⟩,
        if hasTM then [.throttleDefault domain, .scheduleRetry email 1] else [])
    match mxScan hasTM net domain mxRecords ⟨0, 0, "", "", 0⟩ with
    | .early out acts => (out, acts)
    | .permBreak st pe pc =>
      if allTemp st then allTempResult st
      else (⟨false, pe, pc, true, 0⟩, [])
    | .cont st =>
      if allTemp st then allTempResult st
      else if st.finalErr ≠ "" then
        (⟨false, st.finalErr, st.finalCategory, false, st.maxTTL⟩, [])
      else (⟨false, "", "", false, 0⟩, [])

/-- An oracle whose every answer is a completed attempt (no transport
retry, no RCPT success) carrying an error that classifies as temporary. -/
def AllTemporary (net : Nat → AttemptResult) : Prop :=
  ∀ k : Nat, (net k).retry = false ∧ (net k).existsFlag = false ∧
    (net k).err ≠ "" ∧ (classifySMTPError (net k).err).2.1 = false

/-- Proof-side description of one temporary-error iteration of the scan
loop: advance the oracle index, count the temporary error, and track the
largest TTL hint together with its error and category. -/
def tempStep (net : Nat → AttemptResult) (st : ScanState) : ScanState :=
  let c := classifySMTPError (net st.k).err
  let st2 : ScanState := { st with k := st.k + 1, tempErrors := st.tempErrors + 1 }
  if c.2.2 > st2.maxTTL then
    { st2 with maxTTL := c.2.2, finalErr := (net st.k).err, finalCategory := c.1 }
  else st2

/-- Iterate `tempStep` m times. -/
def tempRun (net : Nat → AttemptResult) (st : ScanState) : Nat → ScanState
  | 0 => st
  | m + 1 => tempRun net (tempStep net st) m

/-- Largest TTL hint among the classifications of the first m oracle
answers (0 when there are none). -/
def tempMaxTTL (net : Nat → AttemptResult) (m : Nat) : Int :=
  (List.range m).foldl (fun acc k => max acc (classifySMTPError (net k).err).2.2) 0

end Smtp

/-! ## Email reports and the per-email pipeline (pkg/types, internal/checker) -/

/-- Model of `types.MXRecord`. -/
structure MXRecordT where
  host : String
  priority : Nat
  ttl : Int
deriving DecidableEq

/-- Model of `types.MXStats`. -/
structure MXStatsT where
  valid : Bool
  records : List MXRecordT
  error : String
deriving DecidableEq

/-- Model of `types.EmailReport`; `existsQ` is the `*bool` field `Exists`
(`none` = SMTP never ran). -/
structure EmailReportT where
  email : String
  valid : Bool
  disposable : Bool
  existsQ : Option Bool
  mx : MXStatsT
  permanentError : Bool
  errorCategory : String
  ttl : Int
  smtpError : String
deriving DecidableEq

namespace Checker

/-- Model of `calculateTTL` (internal/checker): TTL hint from MX priority. -/
def calculateTTL (priority : Nat) : Int :=
  if priority = 10 then 3600
  else if priority = 20 then 7200
  else if priority = 30 then 14400
  else 3600

/-- Model of `processEmail` (internal/checker) for one already-normalized
email. External collaborators are oracles: `isValid` is the regex syntax
check `isValidEmail`, `isDisp` is `disposable.IsDisposable`, `mxCache` is
the cache lookup of key `mx:<domain>`, `mxLook` is `mx.GetMXRecords`, and
`smtpCheck` is `smtp.CheckEmailExists` (its outcome quintuple). Cache
writes have no bearing on the returned report and are not tracked here. -/
def processEmail (isValid isDisp : String → Bool)
    (mxCache : String → Option (List MXRec))
    (mxLook : String → Except String (List MXRec))
    (smtpCheck : String → List MXRec → Smtp.SMTPOutcome)
    (email : String) : EmailReportT :=
  let report : EmailReportT :=
    ⟨email, false, false, none, ⟨false, [], ""⟩, false, "", 0, ""⟩
  if !isValid email then report
  else
    let report := { report with valid := true }
    let domain := emailDomain email
    let report := { report with disposable := isDisp domain }
    let fetched : Except String (List MXRec) :=
      match mxCache domain with
      | some recs => .ok recs
      | none => mxLook domain
    match fetched with
    | .error e => { report with mx := { report.mx with error := e } }
    | .ok recs =>
      let report := { report with
        mx := ⟨!recs.isEmpty,
               recs.map fun (r : MXRec) => ⟨trimDot r.host, r.pref, calculateTTL r.pref⟩,
               ""⟩ }
      if report.mx.valid then
        let out := smtpCheck email recs
        { report with
          existsQ := some out.existsFlag
          smtpError := out.err
          errorCategory := out.category
          permanentError := out.permanent
          ttl := out.ttl }
      else report

/-! ### Worker pool of `ProcessEmailsWithConfig` (internal/checker)

`ProcessEmailsWithConfig` pushes the trimmed emails into a FIFO job
channel, `MaxWorkers` goroutines each repeatedly take a job, produce one
report for it (cache hit or `processEmail` on the normalized address —
abstracted as a function `f` from job string to report) and push the
report to a results channel; `collectResults` appends reports in
completion order. A run is modelled as a sequence of scheduler events,
each naming the worker that moves next: an idle worker takes the next
queued job, a busy worker completes its job and appends its report. -/

/-- Pool configuration state: pending jobs (FIFO), the job each worker is
currently processing, and the collected results in completion order. -/
structure PoolState where
  jobs : List String
  workers : List (Option String)
  results : List EmailReportT
deriving DecidableEq

/-- Initial pool state: jobs are the trimmed emails (Go
`strings.TrimSpace` at submission), `w` idle workers, no results. -/
def poolInit (w : Nat) (emails : List String) : PoolState :=
  ⟨emails.map trimStr, List.replicate w none, []⟩

/-- One scheduler event: worker `i` moves. A busy worker finishes its job
(appending `f job` to the results, as the source worker sends the report
to the results channel); an idle worker takes the head of the job queue;
anything else is a no-op. -/
def poolStep (f : String → EmailReportT) (st : PoolState) (i : Nat) : PoolState :=
  match st.workers.get? i with
  | some (some job) =>
    { st with workers := st.workers.set i none, results := st.results ++ [f job] }
  | some none =>
    match st.jobs with
    | [] => st
    | j :: rest => { st with jobs := rest, workers := st.workers.set i (some j) }
  | none => st

/-- Run the pool from the initial state under a schedule. -/
def runPool (f : String → EmailReportT) (w : Nat) (emails : List String)
    (sched : List Nat) : PoolState :=
  sched.foldl (poolStep f) (poolInit w emails)

/-- A pool run is complete when the job queue is empty and every worker is
idle (all jobs done and their reports collected). -/
def poolDone (st : PoolState) : Bool :=
  st.jobs.isEmpty && st.workers.all fun w => w.isNone

/-- The multiset invariant of a pool state: collected reports, reports of
the jobs in flight, and reports of the queued jobs. -/
def totalBag (f : String → EmailReportT) (st : PoolState) : List EmailReportT :=
  st.results ++ (st.workers.filterMap id).map f ++ st.jobs.map f

end Checker

/-! ## Server task processing and HTTP handlers (internal/server) -/

/-- Model of `types.Task` (the fields the handlers and `processTask`
touch). -/
structure TaskM where
  id : String
  status : String
  emails : List String
  results : List EmailReportT
  apiKey : String
deriving DecidableEq

/-- Model of `auth.APIKey` (the fields the handlers touch); times are
nanoseconds. -/
structure APIKeyM where
  key : String
  usedChecks : Int
  remaining : Int
  expiresAt : Int
  initialChecks : Int
deriving DecidableEq

namespace Server

/-- Model of `processTask` (internal/server): run the email pool over the
task emails (with `f`, `w`, `sched` as in `Checker.runPool`), mark the
task completed with the collected results, and return the amount by which
the deferred block decrements the key quota: `len(results)` whenever
`task.APIKey != ""` and `len(results) > 0`, else nothing. -/
def processTask (f : String → EmailReportT) (w : Nat) (sched : List Nat)
    (t : TaskM) : TaskM × Nat :=
  let res := (Checker.runPool f w t.emails sched).results
  ({ t with status := "completed", results := res },
   if t.apiKey ≠ "" ∧ 0 < res.length then res.length else 0)

/-- Model of the POST branch of `handleTasks` (internal/server). The body
is `none` when JSON decoding fails, otherwise the decoded email list. The
source checks the quota against `request.Emails` BEFORE decoding the body
into `request`, so the check sees the zero-value empty slice; the model
reproduces that order. Returns the HTTP status and the saved task (if
any); email length is the Go byte length. -/
def handleTasksPost (key : APIKeyM) (body : Option (List String))
    (taskID : String) : Int × Option TaskM :=
  let requestEmails : List String := []
  if (requestEmails.length : Int) > key.remaining then (403, none)
  else
    match body with
    | none => (400, none)
    | some emails =>
      if emails.length > 10000 then (400, none)
      else if emails.any fun e => 254 < e.utf8ByteSize then (400, none)
      else (200, some ⟨taskID, "pending", emails, [], key.key⟩)

/-- Model of `handleTaskResults` (internal/server) on a found task:
`page`/`per_page` default to 1/100 when ≤ 0 (Go `strconv.Atoi` failures
also yield 0), `start := (page-1)*perPage` is reset to 0 when outside
`[0, len)`, `end` is capped at `len`, and the response carries
`results[start:end]`, the page and the total count. -/
def handleTaskResults (results : List EmailReportT) (pageQ perPageQ : Int) :
    List EmailReportT × Int × Int :=
  let perPage := if perPageQ ≤ 0 then 100 else perPageQ
  let page := if pageQ ≤ 0 then 1 else pageQ
  let start0 := (page - 1) * perPage
  let start := if start0 < 0 ∨ (results.length : Int) ≤ start0 then 0 else start0
  let end0 := start + perPage
  let endv := if (results.length : Int) < end0 then (results.length : Int) else end0
  ((results.drop start.toNat).take (endv - start).toNat, page, (results.length : Int))

/-- Modelled from the spec: the data slice the claim describes for
`GET /tasks-results` — `per_page` clamped into `[1,100]`, `page ≤ 0`
defaulting to 1, and `results[(page-1)*per_page : page*per_page]`
truncated at the end of the list (empty when the window starts past the
end). Stated only to compare against `handleTaskResults`. -/
def specTaskResultsData (results : List EmailReportT) (pageQ perPageQ : Int) :
    List EmailReportT :=
  let perPage := max 1 (min 100 perPageQ)
  let page := if pageQ ≤ 0 then 1 else pageQ
  let start := (page - 1) * perPage
  (results.drop start.toNat).take perPage.toNat

end Server

/-- The effective start index `handleTaskResults` computes: the window
start `(page-1)*per_page`, reset to 0 when it falls outside
`[0, len(results))`. -/
def resultsStart (len pageQ perPageQ : Int) : Int :=
  let perPage := if perPageQ ≤ 0 then 100 else perPageQ
  let page := if pageQ ≤ 0 then 1 else pageQ
  let start0 := (page - 1) * perPage
  if start0 < 0 ∨ len ≤ start0 then 0 else start0

/-! ## Quota accounting and key validation (internal/auth) -/

namespace Auth

/-- One `api_keys` row as touched by the decrement: `used_checks` and
`remaining_checks`. -/
structure KeyRow where
  used : Int
  remaining : Int
deriving DecidableEq

/-- Model of `decrementInTransaction` (internal/auth). The database is a
map from key to row; the transaction runs
`UPDATE ... SET used += n, remaining -= n RETURNING remaining`, errors
when the key has no row, aborts (deferred rollback, so the map is
unchanged) when the returned remaining is negative, and commits
otherwise. Returns the resulting database and the error, if any. -/
def decrementInTransaction (db : String → Option KeyRow) (apiKey : String)
    (count : Int) : (String → Option KeyRow) × Option String :=
  match db apiKey with
  | none => (db, some "update failed")
  | some row =>
    let newRemaining := row.remaining - count
    if newRemaining < 0 then (db, some "quota exceeded")
    else
      (fun k => if k = apiKey then some ⟨row.used + count, newRemaining⟩ else db k,
       none)

/-- Model of `ValidateKey` (internal/auth): `cached` is the Redis lookup
(`some` = hit with no error, `none` = miss or Redis error), `dbRow` the
database row, `now` the clock. A cache hit returns immediately; the
expiry (`time.Now().After`, strict) and quota checks run only on the
database path. The cache refresh on the success path has no bearing on
the returned value and is not tracked. -/
def ValidateKey (cached : Option APIKeyM) (dbRow : Option APIKeyM)
    (now : Int) : Except String APIKeyM :=
  match cached with
  | some k => .ok k
  | none =>
    match dbRow with
    | none => .error "invalid api key"
    | some key =>
      if key.expiresAt < now then .error "api key expired"
      else if key.remaining ≤ 0 then .error "quota exhausted"
      else .ok key

end Auth

/-! ## In-memory TTL cache (internal/cache, `InMemoryCache`) -/

namespace Cache

/-- Model of `InMemoryCache`: the item map (value and absolute expiry
instant) plus the hit/miss counters; instants are nanoseconds. -/
structure MemCache (α : Type) where
  items : String → Option (α × Int)
  statsHits : Int
  statsMisses : Int

/-- Model of `InMemoryCache.Set`: store the value with expiry
`now + ttl`. -/
def memSet {α : Type} (c : MemCache α) (now : Int) (key : String) (v : α)
    (ttl : Int) : MemCache α :=
  { c with items := fun k => if k = key then some (v, now + ttl) else c.items k }

/-- Model of `InMemoryCache.Get`: a key that is absent or whose expiry lies
strictly in the past (`time.Now().After(expireAt)`) misses and bumps the
miss counter; otherwise the value is returned and the hit counter bumps. -/
def memGet {α : Type} (c : MemCache α) (now : Int) (key : String) :
    (Option α × Bool) × MemCache α :=
  match c.items key with
  | none => ((none, false), { c with statsMisses := c.statsMisses + 1 })
  | some (v, expireAt) =>
    if expireAt < now then ((none, false), { c with statsMisses := c.statsMisses + 1 })
    else ((some v, true), { c with statsHits := c.statsHits + 1 })

/-- A fresh `InMemoryCache` (`NewInMemoryCache`). -/
def memEmpty (α : Type) : MemCache α := ⟨fun _ => none, 0, 0⟩

end Cache

/-! ## Fixture values used by concrete counterexamples and witnesses -/

/-- Concrete instantiation of the per-job worker body used by the
counterexamples: `processEmail` on the normalized job, with oracles that
reject every address syntactically (a cold cache, failing DNS and an idle
SMTP oracle complete the picture but are never reached). -/
def cexWorkerF : String → EmailReportT := fun job =>
  Checker.processEmail (fun _ => false) (fun _ => false) (fun _ => none)
    (fun _ => .error "dns error") (fun _ _ => ⟨false, "", "", false, 0⟩)
    (toLowerStr (trimStr job))

/-- One fixed report, only used to populate results lists in the C7
counterexample. -/
def sampleReport : EmailReportT :=
  ⟨"e@x.io", true, false, none, ⟨false, [], ""⟩, false, "", 0, ""⟩

/-! ## Helper lemmas about the classifier -/

theorem not_mem_takeBefore (c : Char) (l : List Char) : c ∉ takeBefore c l := by
  induction l with
  | nil => simp [takeBefore]
  | cons x xs ih =>
    simp only [takeBefore]
    split_ifs with h
    · simp
    · intro hmem
      rcases List.mem_cons.mp hmem with rfl | hm
      · exact h rfl
      · exact ih hm

/-- The extracted code is the first token cut at its first dot, so it can
never be the dotted enhanced code `5.7.1`. -/
theorem extractSMTPCode_ne_571 (errMsg : String) :
    Smtp.extractSMTPCode errMsg ≠ "5.7.1" := by
  unfold Smtp.extractSMTPCode
  dsimp only
  split_ifs with h
  · intro heq
    have hdata : takeBefore '.' (takeBefore ' ' errMsg.data) = "5.7.1".data :=
      congrArg String.data heq
    have hmem : '.' ∈ takeBefore '.' (takeBefore ' ' errMsg.data) := by
      rw [hdata]; decide
    exact not_mem_takeBefore _ _ hmem
  · decide

theorem handlePermanentErrors_cases (code : String) :
    (Smtp.handlePermanentErrors code).1 = "mailbox_not_found" ∨
    (Smtp.handlePermanentErrors code).1 = "mailbox_full" ∨
    (Smtp.handlePermanentErrors code).1 = "invalid_address" ∨
    (Smtp.handlePermanentErrors code).1 = "transaction_failed" ∨
    (Smtp.handlePermanentErrors code).1 = "permanent_error" := by
  unfold Smtp.handlePermanentErrors
  split_ifs <;> simp

theorem handleTemporaryErrors_cases (code : String) :
    (Smtp.handleTemporaryErrors code).1 = "server_unavailable" ∨
    (Smtp.handleTemporaryErrors code).1 = "server_error" ∨
    (Smtp.handleTemporaryErrors code).1 = "storage_limit" ∨
    (Smtp.handleTemporaryErrors code).1 = "temporary_error" := by
  unfold Smtp.handleTemporaryErrors
  split_ifs <;> simp

/-- The RBL branch of `classifySMTPError` is unreachable: the classifier
never yields the category `rbl_restriction`. -/
theorem classify_not_rbl (errMsg : String) :
    (Smtp.classifySMTPError errMsg).1 ≠ "rbl_restriction" := by
  unfold Smtp.classifySMTPError
  rw [if_neg fun hand => extractSMTPCode_ne_571 errMsg hand.1]
  split_ifs with h5 h4
  · rcases handlePermanentErrors_cases (Smtp.extractSMTPCode errMsg) with h | h | h | h | h <;>
      simp [h]
  · rcases handleTemporaryErrors_cases (Smtp.extractSMTPCode errMsg) with h | h | h | h <;>
      simp [h]
  · decide

/-! ## The claims -/

/-- C2: the claim states that an SMTP error reply with enhanced code 5.7.1
and message containing "RBL Restriction" is classified `rbl_restriction`
with a 60 second domain throttle and an immediate return. In the code the
guard `code == "5.7.1"` can never hold, because `extractSMTPCode` cuts the
first token at its first dot, so such replies fall through to the ordinary
permanent handling: a standard reply starting `550 5.7.1 ... RBL
Restriction` classifies as `mailbox_not_found` and a bare `5.7.1 RBL
Restriction` as `permanent_error`, and no message at all is ever
classified `rbl_restriction`. -/
theorem c2_rbl_branch_unreachable :
    Smtp.classifySMTPError "550 5.7.1 Service refused - RBL Restriction" =
      ("mailbox_not_found", true, 0) ∧
    Smtp.classifySMTPError "5.7.1 RBL Restriction" = ("permanent_error", true, 0) ∧
    ∀ errMsg : String, (Smtp.classifySMTPError errMsg).1 ∈
      (["mailbox_not_found", "mailbox_full", "invalid_address", "transaction_failed",
        "permanent_error", "server_unavailable", "server_error", "storage_limit",
        "temporary_error", "unknown_error"] : List String) := by
  refine ⟨by decide, by decide, fun errMsg => ?_⟩
  unfold Smtp.classifySMTPError
  rw [if_neg fun hand => extractSMTPCode_ne_571 errMsg hand.1]
  split_ifs with h5 h4
  · rcases handlePermanentErrors_cases (Smtp.extractSMTPCode errMsg) with h | h | h | h | h <;>
      simp [h]
  · rcases handleTemporaryErrors_cases (Smtp.extractSMTPCode errMsg) with h | h | h | h <;>
      simp [h]
  · simp

/-- C6: the error classifier maps 550 and 551 to `mailbox_not_found`, 552
to `mailbox_full`, 553 and 501 to `invalid_address`, 554 to
`transaction_failed` and every other 5xx code to `permanent_error`, all
permanent with ttl 0; and 421 and 450 to `server_unavailable`, 451 to
`server_error`, 452 to `storage_limit` and every other 4xx code to
`temporary_error`, all non-permanent, with TTL hints 1800, 3600, 7200,
14400 and 3600 by default. -/
theorem c6_classifier_code_mapping :
    (Smtp.handlePermanentErrors "550" = ("mailbox_not_found", true, 0) ∧
     Smtp.handlePermanentErrors "551" = ("mailbox_not_found", true, 0) ∧
     Smtp.handlePermanentErrors "552" = ("mailbox_full", true, 0) ∧
     Smtp.handlePermanentErrors "553" = ("invalid_address", true, 0) ∧
     Smtp.handlePermanentErrors "501" = ("invalid_address", true, 0) ∧
     Smtp.handlePermanentErrors "554" = ("transaction_failed", true, 0) ∧
     ∀ code : String, hasPrefixStr code "5" = true →
       code ∉ (["550", "551", "552", "553", "501", "554"] : List String) →
       Smtp.handlePermanentErrors code = ("permanent_error", true, 0)) ∧
    (Smtp.handleTemporaryErrors "421" = ("server_unavailable", false, 1800) ∧
     Smtp.handleTemporaryErrors "450" = ("server_unavailable", false, 3600) ∧
     Smtp.handleTemporaryErrors "451" = ("server_error", false, 7200) ∧
     Smtp.handleTemporaryErrors "452" = ("storage_limit", false, 14400) ∧
     ∀ code : String, hasPrefixStr code "4" = true →
       code ∉ (["421", "450", "451", "452"] : List String) →
       Smtp.handleTemporaryErrors code = ("temporary_error", false, 3600)) := by
  constructor
  · refine ⟨by decide, by decide, by decide, by decide, by decide, by decide, ?_⟩
    intro code _ hmem
    simp only [List.mem_cons, List.mem_singleton, not_or] at hmem
    obtain ⟨h1, h2, h3, h4, h5, h6, -⟩ := hmem
    simp [Smtp.handlePermanentErrors, h1, h2, h3, h4, h5, h6]
  · refine ⟨by decide, by decide, by decide, by decide, ?_⟩
    intro code _ hmem
    simp only [List.mem_cons, List.mem_singleton, not_or] at hmem
    obtain ⟨h1, h2, h3, h4, -⟩ := hmem
    simp [Smtp.handleTemporaryErrors, Smtp.calculateTTL, h1, h2, h3, h4]

/-- Witness for C6: the two default branches fire at the concrete other
codes 599 and 460. -/
theorem c6_classifier_code_mapping_witness :
    Smtp.handlePermanentErrors "599" = ("permanent_error", true, 0) ∧
    Smtp.handleTemporaryErrors "460" = ("temporary_error", false, 3600) :=
  ⟨c6_classifier_code_mapping.1.2.2.2.2.2.2 "599" (by decide) (by decide),
   c6_classifier_code_mapping.2.2.2.2.2 "460" (by decide) (by decide)⟩

/-- C9: after `Set(k, v, ttl)` on the in-memory cache, a `Get(k)` whose
clock reading lies strictly before the expiry instant `set-time + ttl`
returns `(v, true)`, and one whose clock reading lies strictly after it
misses with `(_, false)`. -/
theorem c9_cache_set_get_ttl (α : Type) (c : Cache.MemCache α) (key : String)
    (v : α) (ttl now getNow : Int) :
    (getNow < now + ttl →
      (Cache.memGet (Cache.memSet c now key v ttl) getNow key).1 = (some v, true)) ∧
    (now + ttl < getNow →
      (Cache.memGet (Cache.memSet c now key v ttl) getNow key).1 = (none, false)) := by
  constructor
  · intro h
    unfold Cache.memGet Cache.memSet
    dsimp only
    rw [if_pos rfl]
    dsimp only
    rw [if_neg (by omega)]
  · intro h
    unfold Cache.memGet Cache.memSet
    dsimp only
    rw [if_pos rfl]
    dsimp only
    rw [if_pos (by omega)]

/-- Witness for C9: storing 42 for 100ns at time 0, a read at time 50
hits with 42 and a read at time 150 misses. -/
theorem c9_cache_set_get_ttl_witness :
    (Cache.memGet (Cache.memSet (Cache.memEmpty Nat) 0 "k" 42 100) 50 "k").1
      = (some 42, true) ∧
    (Cache.memGet (Cache.memSet (Cache.memEmpty Nat) 0 "k" 42 100) 150 "k").1
      = (none, false) :=
  ⟨(c9_cache_set_get_ttl Nat (Cache.memEmpty Nat) "k" 42 100 0 50).1 (by decide),
   (c9_cache_set_get_ttl Nat (Cache.memEmpty Nat) "k" 42 100 0 150).2 (by decide)⟩

/-- C10: a key found in the cache is returned by `ValidateKey` as-is, with
no expiry or quota check (so an expired or exhausted key keeps being
accepted while cached); the `invalid_api_key`, `expired` and
`quota_exhausted` rejections all live on the database path taken on a
cache miss. -/
theorem c10_cache_hit_skips_validation :
    (∀ (k : APIKeyM) (dbRow : Option APIKeyM) (now : Int),
      Auth.ValidateKey (some k) dbRow now = Except.ok k) ∧
    (∀ now : Int, Auth.ValidateKey none none now = Except.error "invalid api key") ∧
    (∀ (k : APIKeyM) (now : Int), k.expiresAt < now →
      Auth.ValidateKey none (some k) now = Except.error "api key expired") ∧
    (∀ (k : APIKeyM) (now : Int), ¬k.expiresAt < now → k.remaining ≤ 0 →
      Auth.ValidateKey none (some k) now = Except.error "quota exhausted") := by
  refine ⟨fun k dbRow now => rfl, fun now => rfl, fun k now h => ?_, fun k now h h2 => ?_⟩
  · simp [Auth.ValidateKey, if_pos h]
  · simp [Auth.ValidateKey, if_neg h, if_pos h2]

/-- Witness for C10: a key that is both expired (expiry −1000 against
clock 0) and quota-exhausted (remaining 0) is still accepted straight
from the cache. -/
theorem c10_cache_hit_skips_validation_witness :
    Auth.ValidateKey (some ⟨"k1", 100, 0, -1000, 100⟩) none 0
        = Except.ok ⟨"k1", 100, 0, -1000, 100⟩ ∧
    (⟨"k1", 100, 0, -1000, 100⟩ : APIKeyM).remaining ≤ 0 ∧
    (⟨"k1", 100, 0, -1000, 100⟩ : APIKeyM).expiresAt < 0 :=
  ⟨c10_cache_hit_skips_validation.1 ⟨"k1", 100, 0, -1000, 100⟩ none 0,
   by decide, by decide⟩

/-- C8: local-mode `DecrementQuota` runs one transaction that adds `n` to
`used_checks` and subtracts `n` from `remaining_checks`; when the
resulting remaining would be negative (or the key has no row) it returns
an error without committing, leaving the stored counters unchanged, and
on success only the targeted row changes. -/
theorem c8_decrement_transaction_atomic
    (db : String → Option Auth.KeyRow) (apiKey : String) (count : Int) :
    ((Auth.decrementInTransaction db apiKey count).2.isSome = true →
      (Auth.decrementInTransaction db apiKey count).1 = db) ∧
    ((Auth.decrementInTransaction db apiKey count).2 = none →
      ∃ row : Auth.KeyRow, db apiKey = some row ∧ count ≤ row.remaining ∧
        (Auth.decrementInTransaction db apiKey count).1 apiKey
          = some ⟨row.used + count, row.remaining - count⟩ ∧
        ∀ k : String, k ≠ apiKey →
          (Auth.decrementInTransaction db apiKey count).1 k = db k) := by
  unfold Auth.decrementInTransaction
  cases hdb : db apiKey with
  | none => exact ⟨fun _ => rfl, fun h => by simp at h⟩
  | some row =>
    dsimp only
    by_cases hneg : row.remaining - count < 0
    · rw [if_pos hneg]
      exact ⟨fun _ => rfl, fun h => by simp at h⟩
    · rw [if_neg hneg]
      refine ⟨fun h => by simp at h, fun _ => ⟨row, rfl, by omega, if_pos rfl, ?_⟩⟩
      intro k hk
      exact if_neg hk

/-- Witness for C8: on a database holding the row (used 2, remaining 5)
for key k, decrementing by 3 commits and yields the row
(used 5, remaining 2). -/
theorem c8_decrement_transaction_atomic_witness :
    ∃ row : Auth.KeyRow,
      (fun k => if k = "k" then some (⟨2, 5⟩ : Auth.KeyRow) else none) "k" = some row ∧
      (3 : Int) ≤ row.remaining ∧
      (Auth.decrementInTransaction
        (fun k => if k = "k" then some (⟨2, 5⟩ : Auth.KeyRow) else none) "k" 3).1 "k"
        = some ⟨row.used + 3, row.remaining - 3⟩ ∧
      ∀ k : String, k ≠ "k" →
        (Auth.decrementInTransaction
          (fun k => if k = "k" then some (⟨2, 5⟩ : Auth.KeyRow) else none) "k" 3).1 k
          = (fun k => if k = "k" then some (⟨2, 5⟩ : Auth.KeyRow) else none) k :=
  (c8_decrement_transaction_atomic
    (fun k => if k = "k" then some ⟨2, 5⟩ else none) "k" 3).2 rfl

/-- C4: the claim states that a POST /tasks whose email list exceeds the
remaining quota is rejected with 403 before the task is saved, and that
the rejection fires for some request with remaining ≥ 0. In the code the
quota guard runs before the body is decoded, so it compares the
zero-value empty list: a six-email request against a key with remaining 5
is accepted with 200 and the task saved, and with remaining ≥ 0 the
handler can only answer 200 or 400, never 403. -/
theorem c4_quota_check_before_decode :
    (Server.handleTasksPost ⟨"key1", 0, 5, 1000, 5⟩
      (some ["e1@x.io", "e2@x.io", "e3@x.io", "e4@x.io", "e5@x.io", "e6@x.io"]) "t1")
      = (200, some ⟨"t1", "pending",
          ["e1@x.io", "e2@x.io", "e3@x.io", "e4@x.io", "e5@x.io", "e6@x.io"], [], "key1"⟩) ∧
    ∀ (key : APIKeyM) (body : Option (List String)) (tid : String),
      0 ≤ key.remaining →
      (Server.handleTasksPost key body tid).1 ∈ ([200, 400] : List Int) := by
  refine ⟨by decide, fun key body tid h => ?_⟩
  unfold Server.handleTasksPost
  rw [if_neg (by simpa using h)]
  match body with
  | none => simp
  | some emails => dsimp only; split_ifs <;> simp

/-- Witness for C4: at a key with remaining 0 and a malformed body, the
handler answers 400 (in the 200/400 range, in particular not 403). -/
theorem c4_quota_check_before_decode_witness :
    (Server.handleTasksPost ⟨"k", 0, 0, 0, 0⟩ none "t").1 ∈ ([200, 400] : List Int) :=
  c4_quota_check_before_decode.2 ⟨"k", 0, 0, 0, 0⟩ none "t" (by decide)

/-! ## Helper lemmas about the worker pool -/

namespace Checker

/-- Removing the job of a busy worker: the jobs in flight before are a
permutation of that job plus the jobs in flight after. -/
theorem filterMap_set_none {α : Type} (l : List (Option α)) (i : Nat) (x : α)
    (h : l.get? i = some (some x)) :
    (l.filterMap id).Perm (x :: (l.set i none).filterMap id) := by
  induction l generalizing i with
  | nil => simp at h
  | cons hd tl ih =>
    cases i with
    | zero =>
      cases h
      simp [List.filterMap_cons]
    | succ j =>
      have h' : tl.get? j = some (some x) := h
      cases hd with
      | none => simpa [List.filterMap_cons] using ih j h'
      | some y =>
        have hstep : (y :: List.filterMap id tl).Perm
            (x :: y :: List.filterMap id (tl.set j none)) :=
          ((ih j h').cons y).trans (List.Perm.swap x y _)
        simpa [List.filterMap_cons] using hstep

/-- Giving a job to an idle worker: the jobs in flight after are a
permutation of that job plus the jobs in flight before. -/
theorem filterMap_set_some {α : Type} (l : List (Option α)) (i : Nat) (x : α)
    (h : l.get? i = some none) :
    ((l.set i (some x)).filterMap id).Perm (x :: l.filterMap id) := by
  induction l generalizing i with
  | nil => simp at h
  | cons hd tl ih =>
    cases i with
    | zero =>
      cases h
      simp [List.filterMap_cons]
    | succ j =>
      have h' : tl.get? j = some none := h
      cases hd with
      | none => simpa [List.filterMap_cons] using ih j h'
      | some y =>
        have hstep : (y :: List.filterMap id (tl.set j (some x))).Perm
            (x :: y :: List.filterMap id tl) :=
          ((ih j h').cons y).trans (List.Perm.swap x y _)
        simpa [List.filterMap_cons] using hstep


theorem poolStep_totalBag_perm (f : String → EmailReportT) (st : PoolState) (i : Nat) :
    (totalBag f (poolStep f st i)).Perm (totalBag f st) := by
  unfold poolStep
  cases hw : st.workers.get? i with
  | none => exact List.Perm.refl _
  | some w =>
    cases w with
    | some job =>
      dsimp only [totalBag]
      have hperm := filterMap_set_none st.workers i job hw
      have heq : (st.results ++ [f job])
            ++ (List.filterMap id (st.workers.set i none)).map f ++ st.jobs.map f
          = st.results ++ (f job :: (List.filterMap id (st.workers.set i none)).map f)
            ++ st.jobs.map f := by
        simp
      rw [heq]
      exact List.Perm.append_right _ (List.Perm.append_left _ (hperm.map f).symm)
    | none =>
      cases hj : st.jobs with
      | nil => exact List.Perm.refl _
      | cons j rest =>
        dsimp only [totalBag]
        rw [hj]
        refine List.Perm.trans
          (List.Perm.append_right _ (List.Perm.append_left _
            ((filterMap_set_some st.workers i j hw).map f))) ?_
        simp only [List.map_cons]
        have heq1 : st.results ++ (f j :: List.map f (List.filterMap id st.workers))
              ++ List.map f rest
            = st.results
              ++ (f j :: (List.map f (List.filterMap id st.workers) ++ List.map f rest)) := by
          simp
        have heq2 : st.results ++ List.map f (List.filterMap id st.workers)
              ++ (f j :: List.map f rest)
            = st.results
              ++ (List.map f (List.filterMap id st.workers) ++ f j :: List.map f rest) := by
          simp
        rw [heq1, heq2]
        exact List.Perm.append_left _ List.perm_middle.symm

theorem foldl_poolStep_totalBag_perm (f : String → EmailReportT) (sched : List Nat)
    (st : PoolState) :
    (totalBag f (sched.foldl (poolStep f) st)).Perm (totalBag f st) := by
  induction sched generalizing st with
  | nil => exact List.Perm.refl _
  | cons i rest ih =>
    exact (ih (poolStep f st i)).trans (poolStep_totalBag_perm f st i)

theorem totalBag_of_done (f : String → EmailReportT) (st : PoolState)
    (h : poolDone st = true) : totalBag f st = st.results := by
  unfold poolDone at h
  rw [Bool.and_eq_true] at h
  obtain ⟨hjobs, hworkers⟩ := h
  have hj : st.jobs = [] := List.isEmpty_iff.mp hjobs
  have hw : List.filterMap id st.workers = [] := by
    rw [List.filterMap_eq_nil_iff]
    intro a ha
    have := List.all_eq_true.mp hworkers a ha
    exact Option.isNone_iff_eq_none.mp this
  simp [totalBag, hj, hw]

/-- Any completed pool run collects exactly the reports of the submitted
emails (trimmed, as the source trims on submission), as a permutation. -/
theorem runPool_done_perm (f : String → EmailReportT) (w : Nat)
    (emails : List String) (sched : List Nat)
    (h : poolDone (runPool f w emails sched) = true) :
    ((runPool f w emails sched).results).Perm (emails.map fun e => f (trimStr e)) := by
  have hbag : (totalBag f (runPool f w emails sched)).Perm
      (totalBag f (poolInit w emails)) :=
    foldl_poolStep_totalBag_perm f sched (poolInit w emails)
  rw [totalBag_of_done f _ h] at hbag
  refine hbag.trans ?_
  have hrep : List.filterMap id (List.replicate w (none : Option String)) = [] := by
    rw [List.filterMap_eq_nil_iff]
    intro a ha
    rw [List.eq_of_mem_replicate ha]
    rfl
  simp [totalBag, poolInit, hrep, List.map_map]
  exact List.Perm.refl _

end Checker


/-- C1 (counterexample): the claim states that a completed task's report
at index i is the report for emails[i]. With two workers, the schedule in
which the second worker finishes first collects the reports in completion
order, so the completed run of the task over ["A@x.com", "b@y.com"] ends
with the report for b@y.com at index 0. -/
theorem c1_counterexample :
    Checker.poolDone
      (Checker.runPool cexWorkerF 2 ["A@x.com", "b@y.com"] [0, 1, 1, 0]) = true ∧
    (Server.processTask cexWorkerF 2 [0, 1, 1, 0]
      ⟨"t1", "pending", ["A@x.com", "b@y.com"], [], ""⟩).1.status = "completed" ∧
    (Server.processTask cexWorkerF 2 [0, 1, 1, 0]
      ⟨"t1", "pending", ["A@x.com", "b@y.com"], [], ""⟩).1.results
      ≠ ["A@x.com", "b@y.com"].map fun e => cexWorkerF (trimStr e) := by
  refine ⟨by decide, by decide, ?_⟩
  decide

/-- C1 (amended): for every completed run, the task is marked completed
and holds exactly one report per input email — the results are a
permutation of the per-email reports, with equal length — but the order
is the completion order of the workers, so index alignment is guaranteed
only for schedules that finish jobs in submission order (e.g. a single
worker). -/
theorem c1_completed_task_results
    (f : String → EmailReportT) (w : Nat) (sched : List Nat) (t : TaskM)
    (h : Checker.poolDone (Checker.runPool f w t.emails sched) = true) :
    (Server.processTask f w sched t).1.status = "completed" ∧
    (Server.processTask f w sched t).1.results.length = t.emails.length ∧
    ((Server.processTask f w sched t).1.results).Perm
      (t.emails.map fun e => f (trimStr e)) := by
  have hperm := Checker.runPool_done_perm f w t.emails sched h
  have hlen : (Checker.runPool f w t.emails sched).results.length = t.emails.length := by
    rw [hperm.length_eq, List.length_map]
  exact ⟨rfl, hlen, hperm⟩

/-- Witness for C1: the two-email two-worker run completes with two
reports, a permutation of both per-email reports. -/
theorem c1_completed_task_results_witness :
    (Server.processTask cexWorkerF 2 [0, 1, 1, 0]
      ⟨"t1", "pending", ["A@x.com", "b@y.com"], [], ""⟩).1.status = "completed" ∧
    (Server.processTask cexWorkerF 2 [0, 1, 1, 0]
      ⟨"t1", "pending", ["A@x.com", "b@y.com"], [], ""⟩).1.results.length
      = (["A@x.com", "b@y.com"] : List String).length ∧
    ((Server.processTask cexWorkerF 2 [0, 1, 1, 0]
      ⟨"t1", "pending", ["A@x.com", "b@y.com"], [], ""⟩).1.results).Perm
      (["A@x.com", "b@y.com"].map fun e => cexWorkerF (trimStr e)) :=
  c1_completed_task_results cexWorkerF 2 [0, 1, 1, 0]
    ⟨"t1", "pending", ["A@x.com", "b@y.com"], [], ""⟩ (by decide)

/-- C3 (counterexample): the claim states that emails rejected
syntactically do not decrement the quota. A task with one syntactically
invalid email (its report has valid = false and no SMTP result,
existsQ = none) still produces one result, and `processTask` decrements
the authenticated key by 1, not 0. -/
theorem c3_counterexample :
    (Server.processTask cexWorkerF 1 [0, 0]
      ⟨"t2", "pending", ["not-an-email"], [], "key1"⟩).1.results
      = [⟨"not-an-email", false, false, none, ⟨false, [], ""⟩, false, "", 0, ""⟩] ∧
    (Server.processTask cexWorkerF 1 [0, 0]
      ⟨"t2", "pending", ["not-an-email"], [], "key1"⟩).2 = 1 := by
  constructor
  · decide
  · decide

/-- C3 (amended): `processTask` decrements the quota of every
authenticated task with at least one email by the full number of results
— one per input email, whether or not an SMTP result was produced for
it. -/
theorem c3_decrement_counts_every_email
    (f : String → EmailReportT) (w : Nat) (sched : List Nat) (t : TaskM)
    (h : Checker.poolDone (Checker.runPool f w t.emails sched) = true)
    (hkey : t.apiKey ≠ "") (hne : t.emails ≠ []) :
    (Server.processTask f w sched t).2 = t.emails.length := by
  have hperm := Checker.runPool_done_perm f w t.emails sched h
  have hlen : (Checker.runPool f w t.emails sched).results.length = t.emails.length := by
    rw [hperm.length_eq, List.length_map]
  unfold Server.processTask
  dsimp only
  rw [if_pos ⟨hkey, by rw [hlen]; exact List.length_pos.mpr hne⟩]
  exact hlen

/-- Witness for C3: the one-email authenticated task decrements by 1, the
length of its email list, even though the email is a syntactic reject. -/
theorem c3_decrement_counts_every_email_witness :
    (Server.processTask cexWorkerF 1 [0, 0]
      ⟨"t2", "pending", ["not-an-email"], [], "key1"⟩).2
      = (["not-an-email"] : List String).length :=
  c3_decrement_counts_every_email cexWorkerF 1 [0, 0]
    ⟨"t2", "pending", ["not-an-email"], [], "key1"⟩ (by decide) (by decide) (by decide)


/-- C7 (counterexample): the claim states that per_page is clamped into
[1,100] and that the data equals `results[(page-1)*per_page :
page*per_page]` truncated at the end. On a one-element results list with
page=5 the code returns the first element (the out-of-range start index is
reset to 0) where the claimed slice is empty; and per_page=200 is not
clamped: on 101 results the code returns all 101, where a clamped per_page
would return at most 100. -/
theorem c7_counterexample :
    (Server.handleTaskResults [sampleReport] 5 100).1 = [sampleReport] ∧
    Server.specTaskResultsData [sampleReport] 5 100 = [] ∧
    (Server.handleTaskResults (List.replicate 101 sampleReport) 1 200).1.length = 101 ∧
    (Server.specTaskResultsData (List.replicate 101 sampleReport) 1 200).length = 100 := by
  refine ⟨by decide, by decide, by decide, by decide⟩


/-- Capping the slice end at the list length is the same as truncating a
plain `take` of the window width. -/
theorem take_endcap {α : Type} (l : List α) (s pp : Int) (hs0 : 0 ≤ s)
    (hsl : s ≤ (l.length : Int)) (hpp : 0 < pp) :
    (l.drop s.toNat).take
        ((if (l.length : Int) < s + pp then (l.length : Int) else s + pp) - s).toNat
      = (l.drop s.toNat).take pp.toNat := by
  split_ifs with hcap
  · have h1 : (l.drop s.toNat).length ≤ ((l.length : Int) - s).toNat := by
      rw [List.length_drop]; omega
    have h2 : (l.drop s.toNat).length ≤ pp.toNat := by
      rw [List.length_drop]; omega
    rw [List.take_of_length_le h1, List.take_of_length_le h2]
  · have heq : (s + pp - s).toNat = pp.toNat := by omega
    rw [heq]

/-- C7 (amended): per_page values ≤ 0 default to 100 and there is no upper
clamp; page values ≤ 0 default to 1; the returned data equals
`results[start : start+per_page]` truncated at the end of the list, where
`start = (page-1)*per_page` except that it is reset to 0 whenever it falls
outside `[0, len(results))`; the response also carries the effective page
and the total count. -/
theorem c7_pagination_behavior (results : List EmailReportT) (pageQ perPageQ : Int) :
    Server.handleTaskResults results pageQ perPageQ
      = ((results.drop (resultsStart (results.length : Int) pageQ perPageQ).toNat).take
            (if perPageQ ≤ 0 then (100 : Int) else perPageQ).toNat,
         (if pageQ ≤ 0 then 1 else pageQ),
         (results.length : Int)) := by
  unfold Server.handleTaskResults resultsStart
  dsimp only
  have hpp_pos : 0 < (if perPageQ ≤ 0 then (100 : Int) else perPageQ) := by
    split_ifs <;> omega
  generalize hPG : (if pageQ ≤ 0 then (1 : Int) else pageQ) = pg
  generalize hPP : (if perPageQ ≤ 0 then (100 : Int) else perPageQ) = pp
  rw [hPP] at hpp_pos
  have hsb : 0 ≤ (if (pg - 1) * pp < 0 ∨ (results.length : Int) ≤ (pg - 1) * pp
        then (0 : Int) else (pg - 1) * pp) ∧
      (if (pg - 1) * pp < 0 ∨ (results.length : Int) ≤ (pg - 1) * pp
        then (0 : Int) else (pg - 1) * pp) ≤ (results.length : Int) := by
    split_ifs with h
    · constructor <;> omega
    · push_neg at h
      exact ⟨by omega, le_of_lt h.2⟩
  generalize hS : (if (pg - 1) * pp < 0 ∨ (results.length : Int) ≤ (pg - 1) * pp
      then (0 : Int) else (pg - 1) * pp) = s at hsb
  refine congrArg (fun d => (d, pg, (results.length : Int))) ?_
  exact take_endcap results s pp hsb.1 hsb.2 hpp_pos

/-! ## Helper lemmas for the all-temporary aggregation (C5) -/

namespace Smtp

theorem attemptWithRetry_of_not_retry (net : Nat → AttemptResult) (k : Nat)
    (h : (net k).retry = false) :
    attemptWithRetry net k maxRetries = (⟨(net k).existsFlag, (net k).err, false⟩, k + 1) := by
  show attemptWithRetry net k 2 = _
  unfold attemptWithRetry
  dsimp only
  rw [h]
  simp

theorem tempStep_k (net : Nat → AttemptResult) (st : ScanState) :
    (tempStep net st).k = st.k + 1 := by
  unfold tempStep
  dsimp only
  split_ifs <;> rfl

theorem tempStep_tempErrors (net : Nat → AttemptResult) (st : ScanState) :
    (tempStep net st).tempErrors = st.tempErrors + 1 := by
  unfold tempStep
  dsimp only
  split_ifs <;> rfl

theorem tempStep_maxTTL (net : Nat → AttemptResult) (st : ScanState) :
    (tempStep net st).maxTTL
      = max st.maxTTL (classifySMTPError (net st.k).err).2.2 := by
  unfold tempStep
  dsimp only
  split_ifs with h
  · exact (max_eq_right (le_of_lt h)).symm
  · exact (max_eq_left (not_lt.mp h)).symm

theorem tempRun_comp (net : Nat → AttemptResult) (st : ScanState) (a b : Nat) :
    tempRun net (tempRun net st a) b = tempRun net st (a + b) := by
  induction a generalizing st with
  | zero =>
    rw [Nat.zero_add]
    rfl
  | succ n ih =>
    show tempRun net (tempRun net (tempStep net st) n) b
      = tempRun net st (n + 1 + b)
    rw [ih, Nat.add_right_comm]
    rfl

theorem tempRun_tempErrors (net : Nat → AttemptResult) (st : ScanState) (m : Nat) :
    (tempRun net st m).tempErrors = st.tempErrors + m := by
  induction m generalizing st with
  | zero => rfl
  | succ n ih =>
    show (tempRun net (tempStep net st) n).tempErrors = st.tempErrors + (n + 1)
    rw [ih, tempStep_tempErrors]
    omega

theorem tempRun_maxTTL (net : Nat → AttemptResult) (st : ScanState) (m : Nat) :
    (tempRun net st m).maxTTL
      = (List.range' st.k m).foldl
          (fun acc k => max acc (classifySMTPError (net k).err).2.2) st.maxTTL := by
  induction m generalizing st with
  | zero => rfl
  | succ n ih =>
    show (tempRun net (tempStep net st) n).maxTTL = _
    rw [ih, tempStep_k, tempStep_maxTTL, List.range'_succ]
    rfl

/-- Under an all-temporary oracle the port loop never exits early: it
performs one temporary iteration per port. -/
theorem portScan_allTemp (net : Nat → AttemptResult) (hnet : AllTemporary net)
    (domain mxHost : String) (ports : List String) (st : ScanState) :
    portScan true net domain mxHost ports st = .cont (tempRun net st ports.length) := by
  induction ports generalizing st with
  | nil => rfl
  | cons p rest ih =>
    obtain ⟨hr, hx, he, hp⟩ := hnet st.k
    rcases hcls : classifySMTPError (net st.k).err with ⟨cat, rest2⟩
    rcases rest2 with ⟨perm, ttl⟩
    have hcat : cat ≠ "rbl_restriction" := by
      have := classify_not_rbl (net st.k).err
      rw [hcls] at this
      exact this
    have hperm : perm = false := by
      rw [hcls] at hp
      exact hp
    subst hperm
    unfold portScan
    rw [attemptWithRetry_of_not_retry net st.k hr]
    simp only [Bool.false_eq_true, if_false]
    rw [hx, hcls]
    dsimp only
    rw [if_neg (by simp), if_pos he, if_neg hcat, if_neg (by simp)]
    rw [ih]
    show ScanExit.cont (tempRun net _ rest.length)
      = ScanExit.cont (tempRun net (tempStep net st) rest.length)
    congr 1
    unfold tempStep
    rw [hcls]

/-- Under an all-temporary oracle the MX loop performs three temporary
iterations per MX record. -/
theorem mxScan_allTemp (net : Nat → AttemptResult) (hnet : AllTemporary net)
    (domain : String) (mxs : List MXRec) (st : ScanState) :
    mxScan true net domain mxs st = .cont (tempRun net st (mxs.length * 3)) := by
  induction mxs generalizing st with
  | nil => rfl
  | cons mx rest ih =>
    unfold mxScan
    rw [portScan_allTemp net hnet]
    dsimp only
    rw [ih, tempRun_comp]
    have harith : smtpPorts.length + rest.length * 3 = (rest.length + 1) * 3 := by
      simp [smtpPorts]
      ring
    rw [harith]
    rfl

end Smtp

/-- C5: when the domain is not already throttled and every one of the
`len(mxRecords) * 3` host-port attempts yields a temporary SMTP
classification, `CheckEmailExists` throttles the domain with the default
TTL, schedules a retry for attempt 1, and returns
`(false, "all MX temporary errors", "temporary", false, maxTTL)` where
maxTTL is the largest TTL hint observed. -/
theorem c5_all_temporary_aggregation (throttled : String → Bool)
    (net : Nat → AttemptResult) (email : String) (mxRecords : List MXRec)
    (hmx : mxRecords ≠ []) (hthr : throttled (emailDomain email) = false)
    (hnet : Smtp.AllTemporary net) :
    Smtp.CheckEmailExists true throttled net email mxRecords
      = (⟨false, "all MX temporary errors", "temporary", false,
            Smtp.tempMaxTTL net (mxRecords.length * 3)⟩,
         [Smtp.ThrottleAction.throttleDefault (emailDomain email),
          Smtp.ThrottleAction.scheduleRetry email 1]) := by
  unfold Smtp.CheckEmailExists
  dsimp only
  rw [Bool.true_and, hthr]
  simp only [Bool.false_eq_true, if_false]
  rw [Smtp.mxScan_allTemp net hnet]
  dsimp only
  have hcond : (0 < (Smtp.tempRun net ⟨0, 0, "", "", 0⟩ (mxRecords.length * 3)).tempErrors ∧
      (Smtp.tempRun net ⟨0, 0, "", "", 0⟩ (mxRecords.length * 3)).tempErrors
        = mxRecords.length * Smtp.smtpPorts.length) := by
    rw [Smtp.tempRun_tempErrors]
    have hpos : 0 < mxRecords.length := List.length_pos.mpr hmx
    constructor
    · simpa using Nat.mul_pos hpos (by omega : 0 < 3)
    · show 0 + mxRecords.length * 3 = mxRecords.length * Smtp.smtpPorts.length
      simp [Smtp.smtpPorts]
  rw [if_pos (decide_eq_true hcond)]
  have hmax : (Smtp.tempRun net ⟨0, 0, "", "", 0⟩ (mxRecords.length * 3)).maxTTL
      = Smtp.tempMaxTTL net (mxRecords.length * 3) := by
    rw [Smtp.tempRun_maxTTL]
    unfold Smtp.tempMaxTTL
    rw [List.range_eq_range']
  rw [hmax]
  simp

/-- Witness for C5: one MX record and a constant oracle answering
`451 try again later` (a temporary classification with TTL hint 7200):
the run returns the all-MX-temporary outcome with ttl 7200, throttles
ex.com with the default TTL and schedules a retry for attempt 1. -/
theorem c5_all_temporary_aggregation_witness :
    Smtp.CheckEmailExists true (fun _ => false)
      (fun _ => ⟨false, "451 try again later", false⟩) "user@ex.com"
      [⟨"mx1.ex.com.", 10⟩]
      = (⟨false, "all MX temporary errors", "temporary", false, 7200⟩,
         [Smtp.ThrottleAction.throttleDefault "ex.com",
          Smtp.ThrottleAction.scheduleRetry "user@ex.com" 1]) := by
  have h := c5_all_temporary_aggregation (fun _ => false)
    (fun _ => ⟨false, "451 try again later", false⟩) "user@ex.com"
    [⟨"mx1.ex.com.", 10⟩] (by decide) (by decide)
    (fun k => ⟨rfl, rfl,
      (by decide : ("451 try again later" : String) ≠ ""),
      (by decide : (Smtp.classifySMTPError "451 try again later").2.1 = false)⟩)
  exact h.trans (by decide)

end EmailChecker
